import Mathlib

/-!
Shallow embedding of `src/ercot/rts.py` (class `RealtimeSettlementParser`).

The HTML table obtained by `_get_table` is modelled as an explicit `Table`
value (a list of rows, each row carrying the texts of its `<th>` cells and
of its `<td>` cells); every operation that reads the table takes it as an
argument.  Python `datetime` values are modelled structurally as
year/month/day/hour/minute records, with `timedelta` arithmetic translated
to explicit calendar arithmetic and comparison translated to the
lexicographic order Python uses on valid datetimes.  Python exceptions are
modelled with `Except`: each raise site is mapped to a constructor of `Err`
following the spec's error taxonomy.  The builtin `float` conversion is
modelled as exact decimal parsing into `ℚ` (the claims only depend on
parse success and on the parsed digits, never on binary rounding).
-/

namespace ErcotRts

/-! ## Calendar model (Python `datetime` / `timedelta`) -/

/-- A Python `datetime` value (seconds and microseconds are always zero in
this program, so they are omitted). -/
structure DateTime where
  year : Nat
  month : Nat
  day : Nat
  hour : Nat
  minute : Nat
deriving DecidableEq, Repr

/-- Gregorian leap-year rule, as used by Python's `datetime`. -/
def isLeap (y : Nat) : Bool :=
  (y % 4 == 0 && y % 100 != 0) || y % 400 == 0

/-- Number of days in a month of a given year. -/
def daysInMonth (y m : Nat) : Nat :=
  if m = 2 then (if isLeap y then 29 else 28)
  else if m = 4 ∨ m = 6 ∨ m = 9 ∨ m = 11 then 30
  else 31

/-- `dt + timedelta(days=1)`: the same time of day on the following
calendar day, with month and year rollover. -/
def addOneDay (dt : DateTime) : DateTime :=
  if dt.day < daysInMonth dt.year dt.month then
    { dt with day := dt.day + 1 }
  else if dt.month < 12 then
    { dt with month := dt.month + 1, day := 1 }
  else
    { dt with year := dt.year + 1, month := 1, day := 1 }

/-- `dt - timedelta(minutes=15)`: borrow through hour, day, month and year
as Python's `timedelta` arithmetic does on valid datetimes. -/
def subMinutes15 (dt : DateTime) : DateTime :=
  if 15 ≤ dt.minute then
    { dt with minute := dt.minute - 15 }
  else if 1 ≤ dt.hour then
    { dt with hour := dt.hour - 1, minute := dt.minute + 45 }
  else if 1 < dt.day then
    ⟨dt.year, dt.month, dt.day - 1, 23, dt.minute + 45⟩
  else if 1 < dt.month then
    ⟨dt.year, dt.month - 1, daysInMonth dt.year (dt.month - 1), 23, dt.minute + 45⟩
  else
    ⟨dt.year - 1, 12, 31, 23, dt.minute + 45⟩

/-- Python `datetime` comparison `a <= b`: lexicographic on
(year, month, day, hour, minute), which is timeline order for valid
datetimes. -/
def dtLe (a b : DateTime) : Bool :=
  if a.year < b.year then true else if b.year < a.year then false
  else if a.month < b.month then true else if b.month < a.month then false
  else if a.day < b.day then true else if b.day < a.day then false
  else if a.hour < b.hour then true else if b.hour < a.hour then false
  else decide (a.minute ≤ b.minute)

/-! ## Text parsing (`str.strip`, `strptime`, `float`) -/

/-- Python `str.isspace` characters relevant to `str.strip` /
`float` (ASCII whitespace). -/
def isPySpace (c : Char) : Bool :=
  c = ' ' || c = '\t' || c = '\n' || c = '\r' || c = '\x0b' || c = '\x0c'

/-- Python `str.strip()` on a character list. -/
def pyStripList (l : List Char) : List Char :=
  ((l.dropWhile isPySpace).reverse.dropWhile isPySpace).reverse

/-- Python `str.strip()`. -/
def pyStrip (s : String) : String :=
  String.mk (pyStripList s.data)

/-- Numeric value of a digit character. -/
def dval (c : Char) : Nat := c.toNat - 48

/-- Numeric value of a digit string (most significant first). -/
def natOfDigits (l : List Char) : Nat :=
  l.foldl (fun a c => 10 * a + dval c) 0

/-- CPython `strptime` matcher for `%m`:
regex `1[0-2]|0[1-9]|[1-9]`, two-digit alternatives first.  Returns the
month value and the unconsumed characters. -/
def matchMonth : List Char → Option (Nat × List Char)
  | c1 :: c2 :: rest =>
    if c1.isDigit ∧ c2.isDigit ∧
        ((dval c1 = 1 ∧ dval c2 ≤ 2) ∨ (dval c1 = 0 ∧ 1 ≤ dval c2)) then
      some (10 * dval c1 + dval c2, rest)
    else if c1.isDigit ∧ 1 ≤ dval c1 then
      some (dval c1, c2 :: rest)
    else none
  | [c1] =>
    if c1.isDigit ∧ 1 ≤ dval c1 then some (dval c1, []) else none
  | [] => none

/-- CPython `strptime` matcher for `%d`:
regex `3[01]|[12]\d|0[1-9]|[1-9]`, two-digit alternatives first. -/
def matchDay : List Char → Option (Nat × List Char)
  | c1 :: c2 :: rest =>
    if c1.isDigit ∧ c2.isDigit ∧
        ((dval c1 = 3 ∧ dval c2 ≤ 1) ∨ (1 ≤ dval c1 ∧ dval c1 ≤ 2) ∨
          (dval c1 = 0 ∧ 1 ≤ dval c2)) then
      some (10 * dval c1 + dval c2, rest)
    else if c1.isDigit ∧ 1 ≤ dval c1 then
      some (dval c1, c2 :: rest)
    else none
  | [c1] =>
    if c1.isDigit ∧ 1 ≤ dval c1 then some (dval c1, []) else none
  | [] => none

/-- CPython `strptime` matcher for `%Y`: exactly four digits. -/
def matchYear : List Char → Option (Nat × List Char)
  | c1 :: c2 :: c3 :: c4 :: rest =>
    if c1.isDigit ∧ c2.isDigit ∧ c3.isDigit ∧ c4.isDigit then
      some (1000 * dval c1 + 100 * dval c2 + 10 * dval c3 + dval c4, rest)
    else none
  | _ => none

/-- `datetime.strptime(s, "%m/%d/%Y")` on the character list: full-string
match of month `/` day `/` four-digit year, then the `datetime`
constructor's range validation (year ≥ 1, day within the month). -/
def parseDateChars (l : List Char) : Option (Nat × Nat × Nat) :=
  match matchMonth l with
  | none => none
  | some (m, l1) =>
    match l1 with
    | [] => none
    | s1 :: l2 =>
      if s1 = '/' then
        match matchDay l2 with
        | none => none
        | some (d, l3) =>
          match l3 with
          | [] => none
          | s2 :: l4 =>
            if s2 = '/' then
              match matchYear l4 with
              | none => none
              | some (y, l5) =>
                if l5 = [] ∧ 1 ≤ y ∧ d ≤ daysInMonth y m then some (y, m, d)
                else none
            else none
      else none

/-- `datetime.strptime(s, "%m/%d/%Y")`: a midnight datetime on success. -/
def parseDate (s : String) : Option DateTime :=
  match parseDateChars s.data with
  | some (y, m, d) => some ⟨y, m, d, 0, 0⟩
  | none => none

/-- `datetime.strptime(s, "%H%M")`, i.e. the full-string match of
regex `(2[0-3]|[0-1]\d|\d)([0-5]\d|\d)` with leftmost-first alternation,
returning (hour, minute). -/
def parseTime (s : String) : Option (Nat × Nat) :=
  match s.data with
  | [a, b, c, d] =>
    if a.isDigit ∧ b.isDigit ∧ c.isDigit ∧ d.isDigit ∧
        10 * dval a + dval b ≤ 23 ∧ 10 * dval c + dval d ≤ 59 then
      some (10 * dval a + dval b, 10 * dval c + dval d)
    else none
  | [a, b, c] =>
    if a.isDigit ∧ b.isDigit ∧ c.isDigit then
      if 10 * dval a + dval b ≤ 23 then some (10 * dval a + dval b, dval c)
      else if 10 * dval b + dval c ≤ 59 then some (dval a, 10 * dval b + dval c)
      else none
    else none
  | [a, b] =>
    if a.isDigit ∧ b.isDigit then some (dval a, dval b) else none
  | _ => none

/-- Splits an optional leading sign; returns (isNegative, rest). -/
def splitSign (l : List Char) : Bool × List Char :=
  match l with
  | c :: r => if c = '+' then (false, r) else if c = '-' then (true, r) else (false, l)
  | [] => (false, [])

/-- Grammar of Python `float(str)` after whitespace stripping:
`sign? digits* ('.' digits*)? (('e'|'E') sign? digits+)?` with at least one
digit in the mantissa and nothing left over.  The value is computed
exactly in `ℚ` (the `inf`/`nan` words and digit-group underscores are not
modelled; no claim depends on them). -/
def floatCore (l : List Char) : Option ℚ :=
  let sp := splitSign l
  let l1 := sp.2
  let ds := l1.takeWhile Char.isDigit
  let r1 := l1.dropWhile Char.isDigit
  let fr : List Char × List Char :=
    match r1 with
    | c :: r => if c = '.' then (r.takeWhile Char.isDigit, r.dropWhile Char.isDigit) else ([], r1)
    | [] => ([], r1)
  let fs := fr.1
  let r2 := fr.2
  if ds = [] ∧ fs = [] then none
  else
    let m : Nat := natOfDigits (ds ++ fs)
    let fl : Nat := fs.length
    let base : ℚ := mkRat (Int.ofNat m) (10 ^ fl)
    match r2 with
    | [] => some (if sp.1 then Rat.neg base else base)
    | c :: r3 =>
      if c = 'e' ∨ c = 'E' then
        let sp2 := splitSign r3
        let es := sp2.2.takeWhile Char.isDigit
        let r5 := sp2.2.dropWhile Char.isDigit
        if es = [] then none
        else if r5 = [] then
          let ev : Nat := natOfDigits es
          let q : ℚ :=
            if sp2.1 then mkRat (Int.ofNat m) (10 ^ (fl + ev))
            else mkRat (Int.ofNat (m * 10 ^ ev)) (10 ^ fl)
          some (if sp.1 then Rat.neg q else q)
        else none
      else none

/-- Python `float(s)`: strips surrounding whitespace itself, then parses. -/
def parseFloat (s : String) : Option ℚ :=
  floatCore (pyStripList s.data)

/-! ## Error taxonomy

Each Python raise site is mapped to one constructor:
`invalidArgument` for the explicit `ValueError`s on the arguments and for
`headers.index(zone_or_hub)` failing; `structureError` for
`rows[0]` failing in `_extract_headers` and for a missing
"Oper Day" / "Interval Ending" column; `parseError` for `strptime` /
`float` conversion failures; `indexError` for an out-of-range `cols[i]`
access in the row loop. -/
inductive Err where
  | invalidArgument
  | structureError
  | parseError
  | indexError
deriving DecidableEq, Repr

deriving instance DecidableEq for Except

/-! ## Table model and the parser class -/

/-- One `<tr>` element: the texts of its `<th>` cells and of its
`<td>` cells, in document order. -/
structure Row where
  th : List String
  td : List String
deriving DecidableEq, Repr

/-- The data table (`_get_table` result): its `<tr>` rows in document
order, as returned by `table.find_all("tr")`. -/
structure Table where
  rows : List Row
deriving DecidableEq, Repr

/-- The `Price` dataclass.  `float` values are carried as exact `ℚ`. -/
structure Price where
  price : ℚ
  timestamp : DateTime
  hub : String
deriving DecidableEq, Repr

/-- Python `list.index`: position of the first occurrence, or failure
(`none` stands for the raised `ValueError`). -/
def listIndex (l : List String) (a : String) : Option Nat :=
  match l with
  | [] => none
  | x :: xs => if x = a then some 0 else (listIndex xs a).map (· + 1)

/-- `RealtimeSettlementParser._extract_headers`: the `.text` of every
`<th>` cell of `rows[0]`; `rows[0]` on an empty row list raises
(`structureError`). -/
def extract_headers (tbl : Table) : Except Err (List String) :=
  match tbl.rows with
  | [] => .error .structureError
  | r :: _ => .ok r.th

/-- `RealtimeSettlementParser.get_locations`:
`self._extract_headers(table)[2:]`. -/
def get_locations (tbl : Table) : Except Err (List String) :=
  match extract_headers tbl with
  | .error e => .error e
  | .ok headers => .ok (headers.drop 2)

/-- `RealtimeSettlementParser._create_datetime`: parse the date with
`%m/%d/%Y`; if the time text is exactly `"2400"` add one day to the
midnight datetime, otherwise parse the time with `%H%M` and combine it
with the date. -/
def create_datetime (date time : String) : Except Err DateTime :=
  match parseDate date with
  | none => .error .parseError
  | some d =>
    if time = "2400" then .ok (addOneDay d)
    else
      match parseTime time with
      | none => .error .parseError
      | some (h, m) => .ok ⟨d.year, d.month, d.day, h, m⟩

/-- One iteration of the row loop of `parse_data`, in the source's
evaluation order: skip the row if it has fewer than 3 `<td>` cells;
otherwise read `cols[date_index]` and `cols[time_index]` (out-of-range →
`indexError`), build the timestamp from the stripped texts, read
`cols[hub_zone_index]`, and if `start_time <= price_datetime` convert the
price text with `float` and emit the record, else emit nothing. -/
def processRow (zone : String) (cutoff : DateTime) (hubIdx dateIdx timeIdx : Nat)
    (r : Row) : Except Err (Option Price) :=
  if 3 ≤ r.td.length then
    match r.td[dateIdx]? with
    | none => .error .indexError
    | some dc =>
      match r.td[timeIdx]? with
      | none => .error .indexError
      | some tc =>
        match create_datetime (pyStrip dc) (pyStrip tc) with
        | .error e => .error e
        | .ok ts =>
          match r.td[hubIdx]? with
          | none => .error .indexError
          | some pc =>
            if dtLe cutoff ts then
              match parseFloat pc with
              | none => .error .parseError
              | some v => .ok (some ⟨v, ts, zone⟩)
            else .ok none
  else .ok none

/-- The row loop of `parse_data` over all `<tr>` rows: the first raised
error aborts the whole loop; emitted records are appended in row order. -/
def processRows (zone : String) (cutoff : DateTime) (hubIdx dateIdx timeIdx : Nat) :
    List Row → Except Err (List Price)
  | [] => .ok []
  | r :: rest =>
    match processRow zone cutoff hubIdx dateIdx timeIdx r with
    | .error e => .error e
    | .ok none => processRows zone cutoff hubIdx dateIdx timeIdx rest
    | .ok (some p) =>
      match processRows zone cutoff hubIdx dateIdx timeIdx rest with
      | .error e => .error e
      | .ok l => .ok (p :: l)

/-- `RealtimeSettlementParser.parse_data`.  The fetched table is the
`tbl` argument and the wall clock is the injected `now` argument
(`datetime.now()`); `zone_or_hub = none` models passing `None`. -/
def parse_data (tbl : Table) (zone_or_hub : Option String)
    (start_time : Option DateTime) (now : DateTime) : Except Err (List Price) :=
  match zone_or_hub with
  | none => .error .invalidArgument
  | some zone =>
    let cutoff : DateTime :=
      match start_time with
      | none => subMinutes15 now
      | some t => t
    match extract_headers tbl with
    | .error e => .error e
    | .ok headers =>
      match listIndex headers zone with
      | none => .error .invalidArgument
      | some hubIdx =>
        match listIndex headers "Oper Day" with
        | none => .error .structureError
        | some dateIdx =>
          match listIndex headers "Interval Ending" with
          | none => .error .structureError
          | some timeIdx =>
            processRows zone cutoff hubIdx dateIdx timeIdx tbl.rows

/-! ## Spec-side row description (for the refinement statements)

Written from the spec's words for `extractPrices` step 3: a row with
fewer than 3 cells is skipped silently and contributes nothing; otherwise
the three resolved cells are read, the timestamp is built, and the record
is emitted exactly when the timestamp is on or after the cutoff
(inclusive boundary). -/
def rowRecordSpec (zone : String) (cutoff : DateTime) (hubIdx dateIdx timeIdx : Nat)
    (r : Row) : Option Price :=
  if 3 ≤ r.td.length then
    match r.td[dateIdx]?, r.td[timeIdx]?, r.td[hubIdx]? with
    | some dc, some tc, some pc =>
      match create_datetime (pyStrip dc) (pyStrip tc), parseFloat pc with
      | .ok ts, some v => if dtLe cutoff ts then some ⟨v, ts, zone⟩ else none
      | _, _ => none
    | _, _, _ => none
  else none

/-! ## Helper lemmas -/

theorem isDigit_ne_special {c : Char} (h : c.isDigit = true) :
    c ≠ '+' ∧ c ≠ '-' := by
  constructor <;> rintro rfl <;> exact absurd h (by decide)

theorem splitSign_digit {c : Char} (h : c.isDigit = true) (l : List Char) :
    splitSign (c :: l) = (false, c :: l) := by
  obtain ⟨h1, h2⟩ := isDigit_ne_special h
  simp [splitSign, h1, h2]

/-- A digit followed by `'/'` is not accepted by the `float` grammar:
the digit run ends at the slash and the slash is neither a decimal point
nor an exponent marker. -/
theorem floatCore_digit_slash {a : Char} (ha : a.isDigit = true) (l2 : List Char) :
    floatCore (a :: '/' :: l2) = none := by
  simp only [floatCore, splitSign_digit ha]
  simp [List.takeWhile, List.dropWhile, ha]

/-- Two digits followed by `'/'` are not accepted by the `float` grammar. -/
theorem floatCore_digit_digit_slash {a b : Char} (ha : a.isDigit = true)
    (hb : b.isDigit = true) (l2 : List Char) :
    floatCore (a :: b :: '/' :: l2) = none := by
  simp only [floatCore, splitSign_digit ha]
  simp [List.takeWhile, List.dropWhile, ha, hb]

/-- Shape of a successful `%m` match: one or two digit characters were
consumed from the front. -/
theorem matchMonth_shape {l r : List Char} {m : Nat}
    (h : matchMonth l = some (m, r)) :
    (∃ a b, l = a :: b :: r ∧ a.isDigit = true ∧ b.isDigit = true) ∨
    (∃ a, l = a :: r ∧ a.isDigit = true) := by
  unfold matchMonth at h
  split at h
  · rename_i c1 c2 rest
    split at h
    · rename_i hc
      simp only [Option.some.injEq, Prod.mk.injEq] at h
      exact Or.inl ⟨c1, c2, by rw [h.2], hc.1, hc.2.1⟩
    · split at h
      · rename_i hc
        simp only [Option.some.injEq, Prod.mk.injEq] at h
        exact Or.inr ⟨c1, by rw [h.2], hc.1⟩
      · exact absurd h (by simp)
  · rename_i c1
    split at h
    · rename_i hc
      simp only [Option.some.injEq, Prod.mk.injEq] at h
      exact Or.inr ⟨c1, by rw [h.2], hc.1⟩
    · exact absurd h (by simp)
  · exact absurd h (by simp)

/-- A string accepted by `strptime("%m/%d/%Y")` is rejected by `float`:
the month digits are followed by a slash. -/
theorem floatCore_of_parseDateChars {l : List Char} {ymd : Nat × Nat × Nat}
    (h : parseDateChars l = some ymd) : floatCore l = none := by
  unfold parseDateChars at h
  cases hm : matchMonth l with
  | none => rw [hm] at h; exact absurd h (by simp)
  | some mr =>
    obtain ⟨m, l1⟩ := mr
    rw [hm] at h
    cases l1 with
    | nil => exact absurd h (by simp)
    | cons s1 l2 =>
      by_cases hs : s1 = '/'
      · subst hs
        rcases matchMonth_shape hm with ⟨a, b, hl, ha, hb⟩ | ⟨a, hl, ha⟩
        · rw [hl]; exact floatCore_digit_digit_slash ha hb l2
        · rw [hl]; exact floatCore_digit_slash ha l2
      · exact absurd h (by simp [hs])


theorem listIndex_mem {l : List String} {a : String} {i : Nat}
    (h : listIndex l a = some i) : a ∈ l := by
  induction l generalizing i with
  | nil => exact absurd h (by simp [listIndex])
  | cons x xs ih =>
    unfold listIndex at h
    by_cases hx : x = a
    · subst hx; exact List.mem_cons_self x xs
    · rw [if_neg hx] at h
      cases hj : listIndex xs a with
      | none => rw [hj] at h; exact absurd h (by simp)
      | some j => exact List.mem_cons_of_mem x (ih hj)

theorem listIndex_of_not_mem {l : List String} {a : String} (h : a ∉ l) :
    listIndex l a = none := by
  induction l with
  | nil => rfl
  | cons x xs ih =>
    unfold listIndex
    by_cases hx : x = a
    · subst hx
      exact absurd (List.mem_cons_self x xs) h
    · rw [if_neg hx, ih (fun hm => h (List.mem_cons_of_mem x hm))]
      rfl

theorem parseDate_chars {s : String} {d : DateTime} (h : parseDate s = some d) :
    ∃ ymd, parseDateChars s.data = some ymd := by
  unfold parseDate at h
  split at h
  · rename_i y m dd heq
    exact ⟨(y, m, dd), heq⟩
  · exact absurd h (by simp)

theorem parseDate_midnight {s : String} {d : DateTime} (h : parseDate s = some d) :
    d.hour = 0 ∧ d.minute = 0 := by
  unfold parseDate at h
  split at h
  · simp only [Option.some.injEq] at h
    rw [← h]
    exact ⟨rfl, rfl⟩
  · exact absurd h (by simp)

/-- `+ timedelta(days=1)` does not change the time of day. -/
theorem addOneDay_time (dt : DateTime) :
    (addOneDay dt).hour = dt.hour ∧ (addOneDay dt).minute = dt.minute := by
  unfold addOneDay
  split
  · exact ⟨rfl, rfl⟩
  · split
    · exact ⟨rfl, rfl⟩
    · exact ⟨rfl, rfl⟩

/-- The only error `_create_datetime` can raise is a parse failure. -/
theorem create_datetime_err {a b : String} {e : Err}
    (h : create_datetime a b = .error e) : e = .parseError := by
  unfold create_datetime at h
  split at h
  · simp only [Except.error.injEq] at h
    exact h.symm
  · split at h
    · exact absurd h (by simp)
    · split at h
      · simp only [Except.error.injEq] at h
        exact h.symm
      · exact absurd h (by simp)

/-- Success of `_create_datetime` implies the operating-day text parsed
as a date. -/
theorem create_datetime_date {a b : String} {ts : DateTime}
    (h : create_datetime a b = .ok ts) : ∃ d, parseDate a = some d := by
  unfold create_datetime at h
  split at h
  · exact absurd h (by simp)
  · rename_i d hd
    exact ⟨d, hd⟩

/-- When a row processed by the loop does not raise, the emitted optional
record is exactly described by the spec-side row description. -/
theorem processRow_ok {z : String} {c : DateTime} {h d t : Nat} {r : Row}
    {o : Option Price} (hp : processRow z c h d t r = .ok o) :
    rowRecordSpec z c h d t r = o := by
  unfold processRow at hp
  split at hp
  · rename_i hlen
    split at hp
    · exact absurd hp (by simp)
    · rename_i dc hdc
      split at hp
      · exact absurd hp (by simp)
      · rename_i tc htc
        split at hp
        · exact absurd hp (by simp)
        · rename_i ts hcd
          split at hp
          · exact absurd hp (by simp)
          · rename_i pc hpc
            split at hp
            · rename_i hle
              split at hp
              · exact absurd hp (by simp)
              · rename_i v hpf
                simp only [Except.ok.injEq] at hp
                simp [rowRecordSpec, hlen, hdc, htc, hcd, hpc, hle, hpf, ← hp]
            · rename_i hle
              simp only [Except.ok.injEq] at hp
              cases hpf : parseFloat pc with
              | none => simp [rowRecordSpec, hlen, hdc, htc, hcd, hpc, hpf, ← hp]
              | some v => simp [rowRecordSpec, hlen, hdc, htc, hcd, hpc, hle, hpf, ← hp]
  · rename_i hlen
    simp only [Except.ok.injEq] at hp
    simp [rowRecordSpec, hlen, ← hp]

/-- A non-raising pass of the row loop returns exactly the spec-side
records of its rows, in row order. -/
theorem processRows_ok {z : String} {c : DateTime} {h d t : Nat} :
    ∀ {rows : List Row} {l : List Price},
      processRows z c h d t rows = .ok l →
      l = rows.filterMap (rowRecordSpec z c h d t) := by
  intro rows
  induction rows with
  | nil =>
    intro l hp
    simp only [processRows, Except.ok.injEq] at hp
    rw [← hp]
    rfl
  | cons r rest ih =>
    intro l hp
    unfold processRows at hp
    split at hp
    · exact absurd hp (by simp)
    · rename_i hpr
      rw [List.filterMap_cons, processRow_ok hpr]
      exact ih hp
    · rename_i p hpr
      split at hp
      · exact absurd hp (by simp)
      · rename_i l2 hrest
        simp only [Except.ok.injEq] at hp
        rw [← hp, List.filterMap_cons, processRow_ok hpr]
        rw [ih hrest]

/-- If every row before some row processes without raising and that row
raises `e`, the whole loop raises `e`. -/
theorem processRows_append_error {z : String} {c : DateTime} {h d t : Nat}
    {r : Row} {post : List Row} {e : Err}
    (hr : processRow z c h d t r = .error e) :
    ∀ {pre : List Row},
      (∀ r' ∈ pre, ∃ o, processRow z c h d t r' = .ok o) →
      processRows z c h d t (pre ++ r :: post) = .error e := by
  intro pre
  induction pre with
  | nil =>
    intro _
    rw [List.nil_append]
    unfold processRows
    rw [hr]
  | cons a pre ih =>
    intro hpre
    obtain ⟨o, ho⟩ := hpre a (List.mem_cons_self a pre)
    have hrest := ih (fun r' hm => hpre r' (List.mem_cons_of_mem a hm))
    rw [List.cons_append]
    unfold processRows
    cases o with
    | none => simp [ho, hrest]
    | some p => simp [ho, hrest]

/-- When the requested column coincides with the operating-day column
(as happens for `zone_or_hub = "Oper Day"`), a row can never emit a
record: its cell would have to parse both as a date and as a float. -/
theorem processRow_same_idx {z : String} {c : DateTime} {i t : Nat} {r : Row}
    {o : Option Price} (hp : processRow z c i i t r = .ok o) : o = none := by
  unfold processRow at hp
  split at hp
  · split at hp
    · exact absurd hp (by simp)
    · rename_i dc hdc
      split at hp
      · exact absurd hp (by simp)
      · rename_i tc htc
        split at hp
        · exact absurd hp (by simp)
        · rename_i ts hcd
          split at hp
          · exact absurd hp (by simp)
          · rename_i pc hpc
            split at hp
            · rename_i hle
              obtain ⟨d0, hd0⟩ := create_datetime_date hcd
              obtain ⟨ymd, hymd⟩ := parseDate_chars hd0
              have hfl : parseFloat pc = none := by
                have hpcdc : pc = dc := (Option.some.injEq _ _).mp hpc.symm
                subst hpcdc
                unfold parseFloat
                have hdata : (pyStrip pc).data = pyStripList pc.data := rfl
                rw [hdata] at hymd
                exact floatCore_of_parseDateChars hymd
              rw [hfl] at hp
              exact absurd hp (by simp)
            · simp only [Except.ok.injEq] at hp
              exact hp.symm
  · simp only [Except.ok.injEq] at hp
    exact hp.symm

/-- The whole loop with coinciding hub and date columns returns no
records whenever it returns at all. -/
theorem processRows_same_idx {z : String} {c : DateTime} {i t : Nat} :
    ∀ {rows : List Row} {l : List Price},
      processRows z c i i t rows = .ok l → l = [] := by
  intro rows
  induction rows with
  | nil =>
    intro l hp
    simp only [processRows, Except.ok.injEq] at hp
    exact hp.symm
  | cons r rest ih =>
    intro l hp
    unfold processRows at hp
    split at hp
    · exact absurd hp (by simp)
    · exact ih hp
    · rename_i p hpr
      exact absurd (processRow_same_idx hpr) (by simp)

/-- Every record the spec-side row description emits carries the
requested label as its hub. -/
theorem rowRecordSpec_hub {z : String} {c : DateTime} {h d t : Nat} {r : Row}
    {p : Price} (hp : rowRecordSpec z c h d t r = some p) : p.hub = z := by
  unfold rowRecordSpec at hp
  split at hp
  · split at hp
    · split at hp
      · split at hp
        · simp only [Option.some.injEq] at hp
          rw [← hp]
        · exact absurd hp (by simp)
      · exact absurd hp (by simp)
    · exact absurd hp (by simp)
  · exact absurd hp (by simp)

/-! ## Claim theorems -/

/-- C2: for every operating-day string that parses as a date and every
time string, the built timestamp is midnight of the following calendar
day when the time text is exactly "2400", and otherwise the date combined
with the `HHMM`-parsed time. -/
theorem claim2_timestamp_rule (ds ts : String) (d : DateTime)
    (hd : parseDate ds = some d) :
    (ts = "2400" → create_datetime ds ts = .ok (addOneDay d) ∧
      (addOneDay d).hour = 0 ∧ (addOneDay d).minute = 0) ∧
    (∀ hh mm, ts ≠ "2400" → parseTime ts = some (hh, mm) →
      create_datetime ds ts = .ok ⟨d.year, d.month, d.day, hh, mm⟩) := by
  constructor
  · intro h24
    subst h24
    refine ⟨?_, ?_, ?_⟩
    · unfold create_datetime
      rw [hd]
      simp
    · rw [(addOneDay_time d).1, (parseDate_midnight hd).1]
    · rw [(addOneDay_time d).2, (parseDate_midnight hd).2]
  · intro hh mm hne hpt
    unfold create_datetime
    rw [hd]
    simp [hne, hpt]

/-- C2 witness: day 01/15/2024 with "2400" yields 01/16/2024 00:00 and
with "0930" yields 01/15/2024 09:30. -/
theorem claim2_timestamp_rule_witness :
    parseDate "01/15/2024" = some ⟨2024, 1, 15, 0, 0⟩ ∧
    create_datetime "01/15/2024" "2400" = .ok ⟨2024, 1, 16, 0, 0⟩ ∧
    create_datetime "01/15/2024" "0930" = .ok ⟨2024, 1, 15, 9, 30⟩ := by
  refine ⟨by decide, ?_, ?_⟩
  · have h :=
      ((claim2_timestamp_rule "01/15/2024" "2400" ⟨2024, 1, 15, 0, 0⟩ (by decide)).1 rfl).1
    rw [h]
    decide
  · exact (claim2_timestamp_rule "01/15/2024" "0930" ⟨2024, 1, 15, 0, 0⟩
      (by decide)).2 9 30 (by decide) (by decide)

/-- C4: a `None` location fails with `invalidArgument` before anything
else is examined (for every table, cutoff and clock), and a location
absent from the discovered header labels fails with `invalidArgument`
for every tail of data rows — so no row is ever parsed. -/
theorem claim4_invalid_argument :
    (∀ (tbl : Table) (st : Option DateTime) (now : DateTime),
      parse_data tbl none st now = .error .invalidArgument) ∧
    (∀ (r : Row) (rest : List Row) (z : String) (st : Option DateTime) (now : DateTime),
      z ∉ r.th →
      parse_data ⟨r :: rest⟩ (some z) st now = .error .invalidArgument) := by
  constructor
  · intro tbl st now
    rfl
  · intro r rest z st now hz
    unfold parse_data
    simp [extract_headers, listIndex_of_not_mem hz]

/-- C4 witness: an unknown label is rejected on a concrete table. -/
theorem claim4_invalid_argument_witness :
    ("HB_SOUTH" ∉ ["Oper Day", "Interval Ending", "HB_NORTH"]) ∧
    parse_data
      ⟨[⟨["Oper Day", "Interval Ending", "HB_NORTH"], []⟩,
        ⟨[], ["01/15/2024", "0930", "22.5"]⟩]⟩
      (some "HB_SOUTH") (some ⟨2024, 1, 1, 0, 0⟩) ⟨2024, 1, 15, 9, 45⟩ =
      .error .invalidArgument :=
  ⟨by decide, claim4_invalid_argument.2 _ _ _ _ _ (by decide)⟩

/-- C5 counterexample: a table whose first row has no header cells does
NOT fail — `get_locations` returns normally with the empty list, because
`[][2:]` is just `[]`. -/
theorem claim5_counterexample :
    get_locations ⟨[⟨[], ["01/15/2024", "0915", "22.50"]⟩]⟩ = .ok [] := rfl

/-- C5 amended: only a table with no rows at all makes `get_locations`
fail (with `structureError`, from `rows[0]`); a first row without header
cells yields a normal empty result. -/
theorem claim5_no_header_row :
    get_locations ⟨[]⟩ = .error .structureError ∧
    (∀ (r : Row) (rest : List Row), r.th = [] →
      get_locations ⟨r :: rest⟩ = .ok []) := by
  refine ⟨rfl, ?_⟩
  intro r rest hth
  unfold get_locations extract_headers
  simp [hth]

/-- C5 witness: the headerless-first-row case returns the empty list. -/
theorem claim5_no_header_row_witness :
    (⟨([] : List String), ["x"]⟩ : Row).th = [] ∧
    get_locations ⟨[⟨[], ["x"]⟩, ⟨["H"], []⟩]⟩ = .ok [] :=
  ⟨rfl, claim5_no_header_row.2 _ _ rfl⟩

/-- C8: for every table with at least one row, `get_locations` returns
exactly the first row's header labels with the first two dropped, in
order, with no deduplication and no sorting. -/
theorem claim8_list_locations (tbl : Table) (r : Row) (rest : List Row)
    (hrows : tbl.rows = r :: rest) :
    get_locations tbl = .ok (r.th.drop 2) := by
  unfold get_locations extract_headers
  rw [hrows]

/-- C8 witness: the spec's example header row. -/
theorem claim8_list_locations_witness :
    (⟨[⟨["Oper Day", "Interval Ending", "HB_HOUSTON", "HB_NORTH"], []⟩]⟩ : Table).rows =
      ⟨["Oper Day", "Interval Ending", "HB_HOUSTON", "HB_NORTH"], ([] : List String)⟩ :: [] ∧
    get_locations ⟨[⟨["Oper Day", "Interval Ending", "HB_HOUSTON", "HB_NORTH"], []⟩]⟩ =
      .ok ["HB_HOUSTON", "HB_NORTH"] :=
  ⟨rfl, claim8_list_locations _ _ _ rfl⟩

/-- C9: with the wall clock injected as `now`, omitting `start_time`
behaves exactly as passing `now` minus 15 minutes. -/
theorem claim9_default_cutoff (tbl : Table) (z : Option String) (now : DateTime) :
    parse_data tbl z none now = parse_data tbl z (some (subMinutes15 now)) now := by
  cases z with
  | none => rfl
  | some s => rfl

/-- C3: whenever `parse_data` returns normally with an explicit cutoff,
the result is exactly one record per row with at least 3 data cells whose
timestamp is on or after the cutoff (inclusive boundary, `dtLe`), rows
with fewer than 3 cells contribute nothing, and records keep the table's
top-to-bottom row order (`List.filterMap` over the rows). -/
theorem claim3_row_filter (tbl : Table) (z : String) (c now : DateTime)
    (l : List Price) (hok : parse_data tbl (some z) (some c) now = .ok l) :
    ∃ headers hubIdx dateIdx timeIdx,
      extract_headers tbl = .ok headers ∧
      listIndex headers z = some hubIdx ∧
      listIndex headers "Oper Day" = some dateIdx ∧
      listIndex headers "Interval Ending" = some timeIdx ∧
      l = tbl.rows.filterMap (rowRecordSpec z c hubIdx dateIdx timeIdx) := by
  simp only [parse_data] at hok
  split at hok
  · exact absurd hok (by simp)
  · rename_i headers hh
    split at hok
    · exact absurd hok (by simp)
    · rename_i hubIdx hz
      split at hok
      · exact absurd hok (by simp)
      · rename_i dateIdx hdi
        split at hok
        · exact absurd hok (by simp)
        · rename_i timeIdx hti
          exact ⟨headers, hubIdx, dateIdx, timeIdx, hh, hz, hdi, hti,
            processRows_ok hok⟩

/-- C3 witness: the spec's end-to-end table plus a 2-cell row; the cutoff
equals the second data row's timestamp, which is still included. -/
theorem claim3_row_filter_witness :
    parse_data
      ⟨[⟨["Oper Day", "Interval Ending", "HB_NORTH"], []⟩,
        ⟨[], ["01/15/2024", "0915", "22.50"]⟩,
        ⟨[], ["x", "y"]⟩,
        ⟨[], ["01/15/2024", "0930", "23.10"]⟩]⟩
      (some "HB_NORTH") (some ⟨2024, 1, 15, 9, 30⟩) ⟨2024, 1, 15, 9, 45⟩ =
      .ok [⟨mkRat 231 10, ⟨2024, 1, 15, 9, 30⟩, "HB_NORTH"⟩] ∧
    (∃ headers hubIdx dateIdx timeIdx,
      extract_headers
        ⟨[⟨["Oper Day", "Interval Ending", "HB_NORTH"], []⟩,
          ⟨[], ["01/15/2024", "0915", "22.50"]⟩,
          ⟨[], ["x", "y"]⟩,
          ⟨[], ["01/15/2024", "0930", "23.10"]⟩]⟩ = .ok headers ∧
      listIndex headers "HB_NORTH" = some hubIdx ∧
      listIndex headers "Oper Day" = some dateIdx ∧
      listIndex headers "Interval Ending" = some timeIdx ∧
      [⟨mkRat 231 10, ⟨2024, 1, 15, 9, 30⟩, "HB_NORTH"⟩] =
        (⟨[⟨["Oper Day", "Interval Ending", "HB_NORTH"], []⟩,
          ⟨[], ["01/15/2024", "0915", "22.50"]⟩,
          ⟨[], ["x", "y"]⟩,
          ⟨[], ["01/15/2024", "0930", "23.10"]⟩]⟩ : Table).rows.filterMap
          (rowRecordSpec "HB_NORTH" ⟨2024, 1, 15, 9, 30⟩ hubIdx dateIdx timeIdx)) :=
  ⟨by decide, claim3_row_filter _ "HB_NORTH" ⟨2024, 1, 15, 9, 30⟩ ⟨2024, 1, 15, 9, 45⟩ _
    (by decide)⟩

/-- C10: when the first row carries only header cells (no data cells),
it is iterated by the row loop but skipped by the 3-cell guard, so a
normal result is exactly the records of the remaining rows. -/
theorem claim10_header_row_skipped (tbl : Table) (r : Row) (rest : List Row)
    (z : String) (c now : DateTime) (l : List Price)
    (hrows : tbl.rows = r :: rest) (htd : r.td = [])
    (hok : parse_data tbl (some z) (some c) now = .ok l) :
    ∃ headers hubIdx dateIdx timeIdx,
      extract_headers tbl = .ok headers ∧
      listIndex headers z = some hubIdx ∧
      listIndex headers "Oper Day" = some dateIdx ∧
      listIndex headers "Interval Ending" = some timeIdx ∧
      l = rest.filterMap (rowRecordSpec z c hubIdx dateIdx timeIdx) := by
  simp only [parse_data] at hok
  split at hok
  · exact absurd hok (by simp)
  · rename_i headers hh
    split at hok
    · exact absurd hok (by simp)
    · rename_i hubIdx hz
      split at hok
      · exact absurd hok (by simp)
      · rename_i dateIdx hdi
        split at hok
        · exact absurd hok (by simp)
        · rename_i timeIdx hti
          have hl := processRows_ok hok
          rw [hrows, List.filterMap_cons] at hl
          have hnone : rowRecordSpec z c hubIdx dateIdx timeIdx r = none := by
            simp [rowRecordSpec, htd]
          rw [hnone] at hl
          exact ⟨headers, hubIdx, dateIdx, timeIdx, hh, hz, hdi, hti, hl⟩

/-- C10 witness: the header row of a concrete table contributes nothing;
the single record comes from the data rows only. -/
theorem claim10_header_row_skipped_witness :
    (⟨[⟨["Oper Day", "Interval Ending", "HB_NORTH"], []⟩,
        ⟨[], ["01/15/2024", "0930", "23.10"]⟩]⟩ : Table).rows =
      ⟨["Oper Day", "Interval Ending", "HB_NORTH"], []⟩ ::
        [⟨[], ["01/15/2024", "0930", "23.10"]⟩] ∧
    (⟨["Oper Day", "Interval Ending", "HB_NORTH"], ([] : List String)⟩ : Row).td = [] ∧
    (∃ headers hubIdx dateIdx timeIdx,
      extract_headers
        ⟨[⟨["Oper Day", "Interval Ending", "HB_NORTH"], []⟩,
          ⟨[], ["01/15/2024", "0930", "23.10"]⟩]⟩ = .ok headers ∧
      listIndex headers "HB_NORTH" = some hubIdx ∧
      listIndex headers "Oper Day" = some dateIdx ∧
      listIndex headers "Interval Ending" = some timeIdx ∧
      [(⟨mkRat 231 10, ⟨2024, 1, 15, 9, 30⟩, "HB_NORTH"⟩ : Price)] =
        [(⟨[], ["01/15/2024", "0930", "23.10"]⟩ : Row)].filterMap
          (rowRecordSpec "HB_NORTH" ⟨2024, 1, 15, 9, 30⟩ hubIdx dateIdx timeIdx)) :=
  ⟨rfl, rfl, claim10_header_row_skipped _ _ _ "HB_NORTH" ⟨2024, 1, 15, 9, 30⟩
    ⟨2024, 1, 15, 9, 45⟩ _ rfl rfl (by decide)⟩

/-- C6 counterexample: the at-least-3-cells guard does NOT make every
resolved column access in-bounds — requesting the location at resolved
position 3 on a row with exactly 3 data cells raises an index error. -/
theorem claim6_counterexample :
    parse_data
      ⟨[⟨["Oper Day", "Interval Ending", "HB_A", "HB_B"], []⟩,
        ⟨[], ["01/15/2024", "0930", "1.0"]⟩]⟩
      (some "HB_B") (some ⟨2024, 1, 1, 0, 0⟩) ⟨2024, 1, 15, 9, 45⟩ =
      .error .indexError := by decide

/-- C6 amended: the 3-cell guard guarantees in-bounds access exactly when
the three resolved positions are all below 3 (as in the canonical layout
with the operating day at 0, interval ending at 1 and the location at 2):
then processing a row never raises an index error. -/
theorem claim6_in_bounds (z : String) (c : DateTime) (hubIdx dateIdx timeIdx : Nat)
    (r : Row) (hh : hubIdx < 3) (hd : dateIdx < 3) (ht : timeIdx < 3)
    (hlen : 3 ≤ r.td.length) :
    processRow z c hubIdx dateIdx timeIdx r ≠ .error .indexError := by
  intro hcontra
  unfold processRow at hcontra
  rw [if_pos hlen] at hcontra
  have hdlt : dateIdx < r.td.length := lt_of_lt_of_le hd hlen
  have htlt : timeIdx < r.td.length := lt_of_lt_of_le ht hlen
  have hhlt : hubIdx < r.td.length := lt_of_lt_of_le hh hlen
  simp only [List.getElem?_eq_getElem hdlt, List.getElem?_eq_getElem htlt,
    List.getElem?_eq_getElem hhlt] at hcontra
  split at hcontra
  · rename_i e hcd
    simp only [Except.error.injEq] at hcontra
    exact absurd ((create_datetime_err hcd).symm.trans hcontra) (by decide)
  · split at hcontra
    · split at hcontra
      · simp at hcontra
      · simp at hcontra
    · simp at hcontra

/-- C6 witness: with all three columns resolved below position 3, a
3-cell row raises no index error. -/
theorem claim6_in_bounds_witness :
    (2 < 3 ∧ 0 < 3 ∧ 1 < 3 ∧
      3 ≤ (⟨[], ["01/15/2024", "0930", "22.5"]⟩ : Row).td.length) ∧
    processRow "HB_NORTH" ⟨2024, 1, 1, 0, 0⟩ 2 0 1 ⟨[], ["01/15/2024", "0930", "22.5"]⟩ ≠
      .error .indexError :=
  ⟨by decide, claim6_in_bounds "HB_NORTH" ⟨2024, 1, 1, 0, 0⟩ 2 0 1
    ⟨[], ["01/15/2024", "0930", "22.5"]⟩ (by decide) (by decide) (by decide) (by decide)⟩

/-- C7: a qualifying data row (3 cells read in-bounds, timestamp built,
on or after the cutoff) whose price text does not parse as a float makes
the whole call fail with `parseError`, provided the rows before it
process without raising; no partial list is ever returned. -/
theorem claim7_parse_error_aborts (tbl : Table) (z : String) (c now : DateTime)
    (pre : List Row) (r : Row) (post : List Row)
    (headers : List String) (hubIdx dateIdx timeIdx : Nat)
    (dc tc pc : String) (ts : DateTime)
    (hrows : tbl.rows = pre ++ r :: post)
    (hh : extract_headers tbl = .ok headers)
    (hz : listIndex headers z = some hubIdx)
    (hdi : listIndex headers "Oper Day" = some dateIdx)
    (hti : listIndex headers "Interval Ending" = some timeIdx)
    (hpre : ∀ r' ∈ pre, ∃ o, processRow z c hubIdx dateIdx timeIdx r' = .ok o)
    (hlen : 3 ≤ r.td.length)
    (hdc : r.td[dateIdx]? = some dc)
    (htc : r.td[timeIdx]? = some tc)
    (hts : create_datetime (pyStrip dc) (pyStrip tc) = .ok ts)
    (hpc : r.td[hubIdx]? = some pc)
    (hcut : dtLe c ts = true)
    (hbad : parseFloat pc = none) :
    parse_data tbl (some z) (some c) now = .error .parseError := by
  have hrow : processRow z c hubIdx dateIdx timeIdx r = .error .parseError := by
    unfold processRow
    rw [if_pos hlen]
    simp [hdc, htc, hts, hpc, hcut, hbad]
  simp only [parse_data, hh, hz, hdi, hti]
  rw [hrows]
  exact processRows_append_error hrow hpre

/-- C7 witness: a table whose last row has the unparseable price "N/A"
on a row at/after the cutoff makes the whole call fail. -/
theorem claim7_parse_error_aborts_witness :
    parseFloat "N/A" = none ∧
    parse_data
      ⟨[⟨["Oper Day", "Interval Ending", "HB_NORTH"], []⟩,
        ⟨[], ["01/15/2024", "0915", "22.50"]⟩,
        ⟨[], ["01/15/2024", "0930", "N/A"]⟩]⟩
      (some "HB_NORTH") (some ⟨2024, 1, 15, 9, 20⟩) ⟨2024, 1, 15, 9, 45⟩ =
      .error .parseError := by
  refine ⟨by decide, ?_⟩
  refine claim7_parse_error_aborts _ "HB_NORTH" ⟨2024, 1, 15, 9, 20⟩ ⟨2024, 1, 15, 9, 45⟩
    [⟨["Oper Day", "Interval Ending", "HB_NORTH"], []⟩, ⟨[], ["01/15/2024", "0915", "22.50"]⟩]
    ⟨[], ["01/15/2024", "0930", "N/A"]⟩ []
    ["Oper Day", "Interval Ending", "HB_NORTH"] 2 0 1
    "01/15/2024" "0930" "N/A" ⟨2024, 1, 15, 9, 30⟩
    rfl rfl (by decide) (by decide) (by decide) ?_ (by decide) (by decide) (by decide)
    (by decide) (by decide) (by decide) (by decide)
  intro r' hm
  simp only [List.mem_cons, List.not_mem_nil, or_false] at hm
  rcases hm with rfl | rfl
  · exact ⟨none, by decide⟩
  · exact ⟨none, by decide⟩

/-- C1 counterexample: a call with the interval-ending column label DOES
produce a record (its `HHMM` text is a valid float), whose hub is not
among the locations listed by `get_locations`. -/
theorem claim1_counterexample :
    parse_data
      ⟨[⟨["Oper Day", "Interval Ending", "HB_NORTH"], []⟩,
        ⟨[], ["01/15/2024", "0930", "22.5"]⟩]⟩
      (some "Interval Ending") (some ⟨2024, 1, 1, 0, 0⟩) ⟨2024, 1, 15, 9, 45⟩ =
      .ok [⟨mkRat 930 1, ⟨2024, 1, 15, 9, 30⟩, "Interval Ending"⟩] ∧
    get_locations
      ⟨[⟨["Oper Day", "Interval Ending", "HB_NORTH"], []⟩,
        ⟨[], ["01/15/2024", "0930", "22.5"]⟩]⟩ = .ok ["HB_NORTH"] ∧
    "Interval Ending" ∉ ["HB_NORTH"] :=
  ⟨by decide, by decide, by decide⟩

/-- C1 amended: every emitted record's hub is the requested label, which
is one of the full header-row labels (it may be "Interval Ending", whose
column can hold float-parseable `HHMM` text); a call for "Oper Day" can
never produce a record, since a cell text accepted by the date format
contains a slash and is therefore rejected by `float`. -/
theorem claim1_hub_in_headers :
    (∀ (tbl : Table) (z : String) (st : Option DateTime) (now : DateTime)
        (l : List Price) (p : Price),
      parse_data tbl (some z) st now = .ok l → p ∈ l →
      ∃ headers, extract_headers tbl = .ok headers ∧ p.hub = z ∧ p.hub ∈ headers) ∧
    (∀ (tbl : Table) (st : Option DateTime) (now : DateTime) (l : List Price),
      parse_data tbl (some "Oper Day") st now = .ok l → l = []) := by
  constructor
  · intro tbl z st now l p hok hmem
    simp only [parse_data] at hok
    split at hok
    · exact absurd hok (by simp)
    · rename_i headers hh
      split at hok
      · exact absurd hok (by simp)
      · rename_i hubIdx hz
        split at hok
        · exact absurd hok (by simp)
        · rename_i dateIdx hdi
          split at hok
          · exact absurd hok (by simp)
          · rename_i timeIdx hti
            rw [processRows_ok hok] at hmem
            obtain ⟨r, hr, hrs⟩ := List.mem_filterMap.mp hmem
            have hhub := rowRecordSpec_hub hrs
            exact ⟨headers, hh, hhub, hhub ▸ listIndex_mem hz⟩
  · intro tbl st now l hok
    simp only [parse_data] at hok
    split at hok
    · exact absurd hok (by simp)
    · rename_i headers hh
      split at hok
      · exact absurd hok (by simp)
      · rename_i hubIdx hz
        split at hok
        · exact absurd hok (by simp)
        · rename_i dateIdx hdi
          split at hok
          · exact absurd hok (by simp)
          · rename_i timeIdx hti
            have hsame : dateIdx = hubIdx := ((Option.some.injEq _ _).mp hdi).symm
            rw [hsame] at hok
            exact processRows_same_idx hok

/-- C1 witness: on a well-formed table the emitted hub is the requested
label and appears among the header labels. -/
theorem claim1_hub_in_headers_witness :
    parse_data
      ⟨[⟨["Oper Day", "Interval Ending", "HB_NORTH"], []⟩,
        ⟨[], ["01/15/2024", "0930", "23.10"]⟩]⟩
      (some "HB_NORTH") (some ⟨2024, 1, 1, 0, 0⟩) ⟨2024, 1, 15, 9, 45⟩ =
      .ok [⟨mkRat 231 10, ⟨2024, 1, 15, 9, 30⟩, "HB_NORTH"⟩] ∧
    (∃ headers,
      extract_headers
        ⟨[⟨["Oper Day", "Interval Ending", "HB_NORTH"], []⟩,
          ⟨[], ["01/15/2024", "0930", "23.10"]⟩]⟩ = .ok headers ∧
      (⟨mkRat 231 10, ⟨2024, 1, 15, 9, 30⟩, "HB_NORTH"⟩ : Price).hub = "HB_NORTH" ∧
      (⟨mkRat 231 10, ⟨2024, 1, 15, 9, 30⟩, "HB_NORTH"⟩ : Price).hub ∈ headers) :=
  ⟨by decide, claim1_hub_in_headers.1
    ⟨[⟨["Oper Day", "Interval Ending", "HB_NORTH"], []⟩,
      ⟨[], ["01/15/2024", "0930", "23.10"]⟩]⟩
    "HB_NORTH" (some ⟨2024, 1, 1, 0, 0⟩) ⟨2024, 1, 15, 9, 45⟩
    [⟨mkRat 231 10, ⟨2024, 1, 15, 9, 30⟩, "HB_NORTH"⟩]
    ⟨mkRat 231 10, ⟨2024, 1, 15, 9, 30⟩, "HB_NORTH"⟩ (by decide) (by decide)⟩

end ErcotRts
